import Mathlib

/-!
Verification of the wordpress-rs core: the root-route model and join
algorithm (src/root.rs), the discovery protocol (src/client.rs), the
query-execution pipelines (src/endpoint.rs, src/request.rs) and the error
taxonomy (src/error.rs).

Byte strings are modelled as `List Nat` (each element one byte, < 256 on
every input the code can see).  Rust strings are UTF-8 byte sequences; the
helper `bs` turns an ASCII Lean literal into its byte sequence.
-/

namespace Wordpress

/-- The byte sequence of an ASCII string literal (each char's code point;
for ASCII text this is exactly the UTF-8 byte sequence). -/
def bs (s : String) : List Nat := s.data.map Char.toNat

/-! ## JSON values (`serde_json::Value`)

Objects are modelled as association lists sorted by key (serde_json's
default `Map` is a `BTreeMap`, i.e. key-sorted, and a later duplicate key
overwrites the earlier one).  JSON strings are stored as their decoded
unicode scalar values.  Numbers keep their raw source token: no claim
depends on numeric semantics, only on whether a body parses and on the
shape of objects. -/

inductive Json where
  | null
  | bool (b : Bool)
  | num (raw : List Nat)
  | str (cs : List Nat)
  | arr (elems : List Json)
  | obj (entries : List (List Nat × Json))

/-- Strict lexicographic order on byte lists (the order of Rust `String`
keys in a `BTreeMap`: UTF-8 byte order coincides with scalar order). -/
def bytesLt : List Nat → List Nat → Bool
  | [], [] => false
  | [], _ :: _ => true
  | _ :: _, [] => false
  | a :: as, b :: bst => if a < b then true else if b < a then false else bytesLt as bst

/-- Insert into a key-sorted association list, replacing the value when the
key is already present (`BTreeMap::insert`). -/
def insertEntry (k : List Nat) (v : Json) : List (List Nat × Json) → List (List Nat × Json)
  | [] => [(k, v)]
  | (k2, v2) :: rest =>
    if k = k2 then (k, v) :: rest
    else if bytesLt k k2 then (k, v) :: (k2, v2) :: rest
    else (k2, v2) :: insertEntry k v rest

/-- Association-list lookup by key. -/
def lookupEntry (k : List Nat) : List (List Nat × Json) → Option Json
  | [] => none
  | (k2, v) :: rest => if k2 = k then some v else lookupEntry k rest

/-! ### Byte-level JSON parser (`serde_json::from_slice` into `Value`)

The grammar is serde_json's: RFC 8259 values, strict UTF-8 validation of
string contents, surrogate-pair handling of `\u` escapes, the four JSON
whitespace bytes.  Number tokens are validated syntactically and kept raw
(serde_json additionally rejects some astronomically large floats; that
boundary is outside every claim). -/

def isJsonWs (b : Nat) : Bool := b = 32 || b = 9 || b = 10 || b = 13

def skipWs (input : List Nat) : List Nat := input.dropWhile isJsonWs

def isDigitByte (b : Nat) : Bool := 48 ≤ b && b ≤ 57

def hexVal (b : Nat) : Option Nat :=
  if 48 ≤ b && b ≤ 57 then some (b - 48)
  else if 65 ≤ b && b ≤ 70 then some (b - 55)
  else if 97 ≤ b && b ≤ 102 then some (b - 87)
  else none

/-- Four hex digits, as in a `\uXXXX` escape. -/
def parseHex4 : List Nat → Option (Nat × List Nat)
  | b1 :: b2 :: b3 :: b4 :: rest =>
    match hexVal b1, hexVal b2, hexVal b3, hexVal b4 with
    | some h1, some h2, some h3, some h4 =>
      some (h1 * 4096 + h2 * 256 + h3 * 16 + h4, rest)
    | _, _, _, _ => none
  | _ => none

/-- Is a byte a UTF-8 continuation byte. -/
def isCont (b : Nat) : Bool := 128 ≤ b && b ≤ 191

/-- String body after the opening quote: decoded scalar values and the
rest of the input after the closing quote.  Mirrors serde_json: raw
control bytes rejected, escapes `\" \\ \/ \b \f \n \r \t \uXXXX`,
surrogate pairs combined, lone surrogates rejected, strict UTF-8. -/
def parseStrBody : Nat → List Nat → Option (List Nat × List Nat)
  | 0, _ => none
  | _, [] => none
  | fuel + 1, b :: rest =>
    if b = 34 then some ([], rest)
    else if b = 92 then
      match rest with
      | [] => none
      | e :: r2 =>
        let push (c : Nat) (r : List Nat) : Option (List Nat × List Nat) :=
          match parseStrBody fuel r with
          | some (cs, r3) => some (c :: cs, r3)
          | none => none
        if e = 34 || e = 92 || e = 47 then push e r2
        else if e = 98 then push 8 r2
        else if e = 102 then push 12 r2
        else if e = 110 then push 10 r2
        else if e = 114 then push 13 r2
        else if e = 116 then push 9 r2
        else if e = 117 then
          match parseHex4 r2 with
          | none => none
          | some (n, r3) =>
            if 55296 ≤ n && n ≤ 56319 then
              match r3 with
              | 92 :: 117 :: r4 =>
                match parseHex4 r4 with
                | some (m, r5) =>
                  if 56320 ≤ m && m ≤ 57343 then
                    push (65536 + (n - 55296) * 1024 + (m - 56320)) r5
                  else none
                | none => none
              | _ => none
            else if 56320 ≤ n && n ≤ 57343 then none
            else push n r3
        else none
    else if b < 32 then none
    else if b < 128 then
      match parseStrBody fuel rest with
      | some (cs, r3) => some (b :: cs, r3)
      | none => none
    else if 194 ≤ b && b ≤ 223 then
      match rest with
      | c2 :: r2 =>
        if isCont c2 then
          match parseStrBody fuel r2 with
          | some (cs, r3) => some (((b - 192) * 64 + (c2 - 128)) :: cs, r3)
          | none => none
        else none
      | _ => none
    else if 224 ≤ b && b ≤ 239 then
      match rest with
      | c2 :: c3 :: r2 =>
        let lo2 := if b = 224 then 160 else 128
        let hi2 := if b = 237 then 159 else 191
        if lo2 ≤ c2 && c2 ≤ hi2 && isCont c3 then
          match parseStrBody fuel r2 with
          | some (cs, r3) =>
            some (((b - 224) * 4096 + (c2 - 128) * 64 + (c3 - 128)) :: cs, r3)
          | none => none
        else none
      | _ => none
    else if 240 ≤ b && b ≤ 244 then
      match rest with
      | c2 :: c3 :: c4 :: r2 =>
        let lo2 := if b = 240 then 144 else 128
        let hi2 := if b = 244 then 143 else 191
        if lo2 ≤ c2 && c2 ≤ hi2 && isCont c3 && isCont c4 then
          match parseStrBody fuel r2 with
          | some (cs, r3) =>
            some (((b - 240) * 262144 + (c2 - 128) * 4096 + (c3 - 128) * 64
                  + (c4 - 128)) :: cs, r3)
          | none => none
        else none
      | _ => none
    else none

/-- A number token: optional minus, integer part (`0` or nonzero-led
digits), optional fraction, optional exponent.  Returns the raw token
bytes and the rest. -/
def parseNumTok (input : List Nat) : Option (List Nat × List Nat) :=
  let (sign, afterSign) :=
    match input with
    | 45 :: r => ([45], r)
    | _ => ([], input)
  match afterSign with
  | [] => none
  | d :: _ =>
    if !isDigitByte d then none
    else
      let (intPart, afterInt) :=
        if d = 48 then ([48], afterSign.tail)
        else (afterSign.takeWhile isDigitByte, afterSign.dropWhile isDigitByte)
      let (fracPart, afterFrac) :=
        match afterInt with
        | 46 :: r =>
          match r with
          | f :: _ =>
            if isDigitByte f then
              (46 :: r.takeWhile isDigitByte, r.dropWhile isDigitByte)
            else ([], afterInt)
          | [] => ([], afterInt)
        | _ => ([], afterInt)
      if fracPart = [] && (match afterInt with | 46 :: _ => true | _ => false) then none
      else
        let (expPart, afterExp) :=
          match afterFrac with
          | e :: r =>
            if e = 101 || e = 69 then
              let (esign, r2) :=
                match r with
                | 43 :: r3 => ([43], r3)
                | 45 :: r3 => ([45], r3)
                | _ => ([], r)
              match r2 with
              | g :: _ =>
                if isDigitByte g then
                  (e :: esign ++ r2.takeWhile isDigitByte, r2.dropWhile isDigitByte)
                else ([], [])
              | [] => ([], [])
            else ([e] , r)
          | [] => ([], [])
        match afterFrac with
        | e :: _ =>
          if e = 101 || e = 69 then
            if expPart = [] then none
            else some (sign ++ intPart ++ fracPart ++ expPart, afterExp)
          else some (sign ++ intPart ++ fracPart, afterFrac)
        | [] => some (sign ++ intPart ++ fracPart, afterFrac)

mutual

/-- One JSON value at the head of the input (no leading whitespace). -/
def parseVal : Nat → List Nat → Option (Json × List Nat)
  | 0, _ => none
  | _, [] => none
  | fuel + 1, b :: rest =>
    if b = 110 then
      match rest with
      | 117 :: 108 :: 108 :: r => some (.null, r)
      | _ => none
    else if b = 116 then
      match rest with
      | 114 :: 117 :: 101 :: r => some (.bool true, r)
      | _ => none
    else if b = 102 then
      match rest with
      | 97 :: 108 :: 115 :: 101 :: r => some (.bool false, r)
      | _ => none
    else if b = 34 then
      match parseStrBody (rest.length + 1) rest with
      | some (cs, r) => some (.str cs, r)
      | none => none
    else if b = 91 then
      match skipWs rest with
      | 93 :: r => some (.arr [], r)
      | r2 => parseArrItems fuel r2 []
    else if b = 123 then
      match skipWs rest with
      | 125 :: r => some (.obj [], r)
      | r2 => parseObjItems fuel r2 []
    else if b = 45 || isDigitByte b then
      match parseNumTok (b :: rest) with
      | some (tok, r) => some (.num tok, r)
      | none => none
    else none

/-- Array elements after `[` (first element expected at the head). -/
def parseArrItems : Nat → List Nat → List Json → Option (Json × List Nat)
  | 0, _, _ => none
  | fuel + 1, input, acc =>
    match parseVal fuel input with
    | none => none
    | some (v, rest) =>
      match skipWs rest with
      | 44 :: r2 => parseArrItems fuel (skipWs r2) (v :: acc)
      | 93 :: r2 => some (.arr (acc.reverse ++ [v]), r2)
      | _ => none

/-- Object members after `{` (first key expected at the head). -/
def parseObjItems : Nat → List Nat → List (List Nat × Json) → Option (Json × List Nat)
  | 0, _, _ => none
  | fuel + 1, input, acc =>
    match input with
    | 34 :: rest =>
      (match parseStrBody (rest.length + 1) rest with
       | none => none
       | some (k, r2) =>
         match skipWs r2 with
         | 58 :: r3 =>
           (match parseVal fuel (skipWs r3) with
            | none => none
            | some (v, r4) =>
              match skipWs r4 with
              | 44 :: r5 => parseObjItems fuel (skipWs r5) (insertEntry k v acc)
              | 125 :: r5 => some (.obj (insertEntry k v acc), r5)
              | _ => none)
         | _ => none)
    | _ => none

end

/-- `serde_json::from_slice::<Value>`: the whole input must be one JSON
value surrounded only by whitespace. -/
def parseJson (bytes : List Nat) : Option Json :=
  match parseVal (2 * bytes.length + 8) (skipWs bytes) with
  | some (j, rest) => if skipWs rest = [] then some j else none
  | none => none

/-! ## Percent-coding (the `form_urlencoded` and `percent-encoding` crates)

`decode_utf8_lossy` on decoded pairs is modelled as the identity on the
decoded bytes; this is exact whenever the percent-decoded parameters are
valid UTF-8 (always the case in the claims, which are ASCII). -/

/-- Bytes `byte_serialize` emits literally: ASCII alphanumeric and `*-._`. -/
def formUnreserved (b : Nat) : Bool :=
  (48 ≤ b && b ≤ 57) || (65 ≤ b && b ≤ 90) || (97 ≤ b && b ≤ 122) ||
  b = 42 || b = 45 || b = 46 || b = 95

def hexDigitUpper (n : Nat) : Nat := if n < 10 then 48 + n else 55 + n

/-- `form_urlencoded::byte_serialize` of one byte: literal, `+` for
space, `%XX` (uppercase) otherwise. -/
def encByte (b : Nat) : List Nat :=
  if formUnreserved b then [b]
  else if b = 32 then [43]
  else [37, hexDigitUpper (b / 16), hexDigitUpper (b % 16)]

def formEncode (xs : List Nat) : List Nat := xs.flatMap encByte

/-- `percent_encoding::percent_decode`: `%XX` with two hex digits becomes
the byte, a `%` not followed by two hex digits stays literal. -/
def percentDecode : List Nat → List Nat
  | [] => []
  | 37 :: a :: b :: rest =>
    (match hexVal a, hexVal b with
     | some ha, some hb => (ha * 16 + hb) :: percentDecode rest
     | _, _ => 37 :: percentDecode (a :: b :: rest))
  | b :: rest => b :: percentDecode rest

/-- Decoding of one form-urlencoded piece: `+` to space, then
percent-decode. -/
def decodePiece (xs : List Nat) : List Nat :=
  percentDecode (xs.map fun b => if b = 43 then 32 else b)

/-- Split a byte list on a separator byte (`str::split`): always at least
one piece, empty pieces kept. -/
def splitOnByte (sep : Nat) : List Nat → List (List Nat)
  | [] => [[]]
  | b :: rest =>
    if b = sep then [] :: splitOnByte sep rest
    else
      match splitOnByte sep rest with
      | [] => [[b]]
      | piece :: more => (b :: piece) :: more

/-- Split at the first occurrence of a byte: what stands before it, and
(when the byte occurs) what stands after it. -/
def splitFirst (sep : Nat) : List Nat → List Nat × Option (List Nat)
  | [] => ([], none)
  | b :: rest =>
    if b = sep then ([], some rest)
    else
      let p := splitFirst sep rest
      (b :: p.1, p.2)

/-- `form_urlencoded::parse`: split on `&`, skip empty pieces, split each
piece at its first `=` (absent `=` means empty value), decode both
sides. -/
def parseQueryPairs (q : List Nat) : List (List Nat × List Nat) :=
  (splitOnByte 38 q).filterMap fun piece =>
    if piece = [] then none
    else
      let p := splitFirst 61 piece
      some (decodePiece p.1, decodePiece (p.2.getD []))

/-! ## URL model (the `url` crate)

A parsed URL, restricted to the components the core reads or writes:
scheme, authority (host and explicit port), hierarchical path segments (as
stored, i.e. percent-encoded), query string (as stored).  Fragments,
userinfo, IDNA host normalization and dot-segment normalization are
outside every claim and not modelled; non-special schemes parse as opaque
(no authority, the whole path as one stored segment). -/

structure Url where
  scheme : List Nat
  hasAuthority : Bool
  host : List Nat
  port : Option Nat
  pathSegments : List (List Nat)
  query : Option (List Nat)
deriving DecidableEq

def isSpecialScheme (s : List Nat) : Bool :=
  s = bs "http" || s = bs "https" || s = bs "ws" || s = bs "wss" || s = bs "ftp"

def defaultPort (s : List Nat) : Option Nat :=
  if s = bs "http" || s = bs "ws" then some 80
  else if s = bs "https" || s = bs "wss" then some 443
  else if s = bs "ftp" then some 21
  else none

/-- `Url::as_str`: the serialization. -/
def Url.toStr (u : Url) : List Nat :=
  u.scheme ++ [58] ++
  (if u.hasAuthority then
    [47, 47] ++ u.host ++
      (match u.port with
       | some p => 58 :: bs (toString p)
       | none => []) ++
      47 :: List.intercalate [47] u.pathSegments
   else List.intercalate [47] u.pathSegments) ++
  (match u.query with
   | some q => 63 :: q
   | none => [])

def isAlphaByte (b : Nat) : Bool := (65 ≤ b && b ≤ 90) || (97 ≤ b && b ≤ 122)

def isSchemeRestByte (b : Nat) : Bool :=
  isAlphaByte b || isDigitByte b || b = 43 || b = 45 || b = 46

def lowerByte (b : Nat) : Nat := if 65 ≤ b && b ≤ 90 then b + 32 else b

inductive UrlParseError where
  | relativeUrlWithoutBase
  | emptyHost
  | invalidPort
  | invalidDomainCharacter
deriving DecidableEq

/-- Forbidden host code points (ASCII part of the WHATWG list). -/
def forbiddenHostByte (b : Nat) : Bool :=
  b = 0 || b = 9 || b = 10 || b = 13 || b = 32 || b = 35 || b = 47 ||
  b = 60 || b = 62 || b = 63 || b = 64 || b = 91 || b = 92 || b = 93 ||
  b = 94 || b = 124

/-- The WHATWG path percent-encode set, applied to each path segment while
parsing (`%` passes through: already-encoded sequences are kept). -/
def pathParseEncoded (b : Nat) : Bool :=
  b < 32 || b = 127 || 128 ≤ b || b = 32 || b = 34 || b = 60 || b = 62 ||
  b = 96 || b = 35 || b = 63 || b = 123 || b = 125

/-- The WHATWG query percent-encode set for special schemes. -/
def queryParseEncoded (b : Nat) : Bool :=
  b < 32 || b = 127 || 128 ≤ b || b = 32 || b = 34 || b = 35 || b = 60 ||
  b = 62 || b = 39

def percentEncodeWith (f : Nat → Bool) (xs : List Nat) : List Nat :=
  xs.flatMap fun b =>
    if f b then [37, hexDigitUpper (b / 16), hexDigitUpper (b % 16)] else [b]

/-- The part of a byte list after the last occurrence of a byte (the whole
list when the byte does not occur). -/
def afterLastByte (sep : Nat) (xs : List Nat) : List Nat :=
  (xs.reverse.takeWhile fun b => b ≠ sep).reverse

def digitsToNat (ds : List Nat) : Nat := ds.foldl (fun acc d => acc * 10 + (d - 48)) 0

/-- `Url::parse` on the modelled subset: scheme validation, then for
special schemes authority (userinfo dropped, host lowercased, default
port elided), path split into segments, query; for other schemes an
opaque path.  Input cleaning (strip surrounding C0/space, remove interior
tab/newline) follows the WHATWG parser. -/
def urlParse (input : List Nat) : Except UrlParseError Url :=
  let trimmed := ((input.dropWhile fun b => b ≤ 32).reverse.dropWhile fun b => b ≤ 32).reverse
  let cleaned := trimmed.filter fun b => b ≠ 9 && b ≠ 10 && b ≠ 13
  let sp := splitFirst 58 cleaned
  match sp.2 with
  | none => .error .relativeUrlWithoutBase
  | some afterColon =>
    match sp.1 with
    | [] => .error .relativeUrlWithoutBase
    | c :: cs =>
      if !(isAlphaByte c && cs.all isSchemeRestByte) then .error .relativeUrlWithoutBase
      else
        let scheme := (c :: cs).map lowerByte
        if isSpecialScheme scheme then
          let afterSlashes := afterColon.dropWhile fun b => b = 47 || b = 92
          let isTerm : Nat → Bool := fun b => b = 47 || b = 92 || b = 63 || b = 35
          let authority := afterSlashes.takeWhile fun b => !isTerm b
          let rest := afterSlashes.dropWhile fun b => !isTerm b
          let hostPort := afterLastByte 64 authority
          let hp := splitFirst 58 hostPort
          if hp.1 = [] then .error .emptyHost
          else if hp.1.any forbiddenHostByte then .error .invalidDomainCharacter
          else
            let host := hp.1.map lowerByte
            let portResult : Except UrlParseError (Option Nat) :=
              match hp.2 with
              | none => .ok none
              | some ds =>
                if ds = [] then .ok none
                else if ds.all isDigitByte then
                  let p := digitsToNat ds
                  if p < 65536 then
                    .ok (if defaultPort scheme = some p then none else some p)
                  else .error .invalidPort
                else .error .invalidPort
            match portResult with
            | .error e => .error e
            | .ok port =>
              let beforeHash := (splitFirst 35 rest).1
              let pq := splitFirst 63 beforeHash
              let pathRaw := (pq.1.map fun b => if b = 92 then 47 else b)
              let pathBody :=
                match pathRaw with
                | 47 :: r => r
                | r => r
              let segments := (splitOnByte 47 pathBody).map (percentEncodeWith pathParseEncoded)
              let query := pq.2.map (percentEncodeWith queryParseEncoded)
              .ok { scheme := scheme, hasAuthority := true, host := host, port := port,
                    pathSegments := segments, query := query }
        else
          let beforeHash := (splitFirst 35 afterColon).1
          let pq := splitFirst 63 beforeHash
          .ok { scheme := scheme, hasAuthority := false, host := [], port := none,
                pathSegments := [percentEncodeWith (fun b => b < 32 || b = 127 || 128 ≤ b) pq.1],
                query := pq.2.map (percentEncodeWith queryParseEncoded) }

/-! ## Root-route model (src/root.rs) -/

/-- Name of query parameter that is used to specify the endpoint route
when pretty permalinks is not enabled (src/root.rs). -/
def REST_ROUTE_QUERY_PARAM : List Nat := bs "rest_route"

/-- API root route (src/root.rs). -/
inductive RootRoute where
  | default (url : Url)
  | prettyPermalinks (url : Url)
deriving DecidableEq

/-- `impl From<Url> for RootRoute` (src/root.rs): Default iff any decoded
query-pair key equals `rest_route`. -/
def RootRoute.fromUrl (url : Url) : RootRoute :=
  if (parseQueryPairs (url.query.getD [])).any (fun kv => kv.1 = REST_ROUTE_QUERY_PARAM)
  then .default url
  else .prettyPermalinks url

/-- One append step of `form_urlencoded::Serializer`: a `&` separator only
when something already stands in the serialization. -/
def appendPiece (q piece : List Nat) : List Nat :=
  if q = [] then piece else q ++ 38 :: piece

/-- The body the serializer writes for one previous pair, as in the
`RootRoute::join` loop for the Default variant: the `rest_route` pair gets
the route as its new value, an empty value is re-emitted key-only. -/
def emitPair (route : List Nat) (kv : List Nat × List Nat) : List Nat :=
  if kv.1 = REST_ROUTE_QUERY_PARAM then
    formEncode REST_ROUTE_QUERY_PARAM ++ 61 :: formEncode route
  else if kv.2 = [] then formEncode kv.1
  else formEncode kv.1 ++ 61 :: formEncode kv.2

/-- `PathSegmentsMut::pop_if_empty`. -/
def popIfEmpty (segs : List (List Nat)) : List (List Nat) :=
  match segs.getLast? with
  | some [] => segs.dropLast
  | _ => segs

/-- The PATH_SEGMENT encode set used by `PathSegmentsMut::push`
(path set plus `/` and `%`). -/
def pathSegmentPushEncoded (b : Nat) : Bool :=
  pathParseEncoded b || b = 47 || b = 37

/-- `str::trim_start_matches('/')`: every leading slash removed. -/
def trimStartSlashes (route : List Nat) : List Nat :=
  route.dropWhile fun b => b = 47

/-- `RootRoute::join` (src/root.rs). -/
def RootRoute.join (r : RootRoute) (route : List Nat) : Url :=
  match r with
  | .default url =>
    let prevPairs := parseQueryPairs (url.query.getD [])
    { url with query := some (prevPairs.foldl (fun q kv => appendPiece q (emitPair route kv)) []) }
  | .prettyPermalinks url =>
    let comps := splitOnByte 47 (trimStartSlashes route)
    let newSegs :=
      comps.foldl (fun segs comp => segs ++ [percentEncodeWith pathSegmentPushEncoded comp])
        (popIfEmpty url.pathSegments)
    { url with pathSegments := newSegs }

/-! ## Error taxonomy (src/error.rs) -/

/-- Errors which may occur when using API endpoints (`ApiError<E>`),
parameterized by the transport's own error type.  A `serde_json::Error` is
carried opaquely as its message bytes. -/
inductive ApiError (ε : Type) where
  | client (source : ε)
  | urlParse (source : UrlParseError)
  /-- Modelled from the spec: the constructor `ApiError::root_route_discovery`
  called by src/client.rs is not defined anywhere under src (src/error.rs is an
  earlier revision whose `RootRouteDiscovery` variant carries no field); the
  spec says the discovery failure carries the originally queried URL. -/
  | rootRouteDiscovery (url : Url)
  /-- Modelled from the spec: likewise `ApiError::resource_discovery` and a
  matching variant are absent from src/error.rs; the spec says resource
  discovery fails with a discovery error carrying the probed URL. -/
  | resourceDiscovery (url : Url)
  | wordPress (message : List Nat) (code : List Nat) (data : Json)
  | wordPressInternal (status : Nat) (data : List Nat)
  | wordPressUnrecognized (json : Json)
  | dataType (source : List Nat) (typename : List Nat)
  /-- Modelled from the spec: `ApiError::request`, called by src/client.rs and
  src/request.rs for a failed `http::Request` build, is also absent from
  src/error.rs.  In the model request building is total, so this variant is
  never produced. -/
  | request (source : List Nat)

/-- `usize::from_str` as `Value::pointer` uses it on an array token:
optional `+`, then digits. -/
def parseUsize (tok : List Nat) : Option Nat :=
  let t := match tok with
    | 43 :: r => r
    | r => r
  if t ≠ [] && t.all isDigitByte then some (digitsToNat t) else none

/-- `Value::pointer` for a single-token pointer `/key` whose key has no
`~0`/`~1` escapes (true of `message`, `code` and `data`): object field
lookup, or index lookup on an array. -/
def Json.pointerKey (j : Json) (key : List Nat) : Option Json :=
  match j with
  | .obj entries => lookupEntry key entries
  | .arr elems =>
    (match parseUsize key with
     | some i => elems.get? i
     | none => none)
  | _ => none

/-- `Value::as_str`. -/
def Json.asStr : Json → Option (List Nat)
  | .str cs => some cs
  | _ => none

/-- `ApiError::from_json` (src/error.rs): application error exactly when
`message`, `code` and `data` are all present and `message`, `code` are
strings; otherwise unrecognized, carrying the whole value. -/
def ApiError.fromJson {ε : Type} (json : Json) : ApiError ε :=
  match json.pointerKey (bs "message"), json.pointerKey (bs "code"),
        json.pointerKey (bs "data") with
  | some m, some c, some d =>
    (match m.asStr, c.asStr with
     | some ms, some cs => .wordPress ms cs d
     | _, _ => .wordPressUnrecognized json)
  | _, _, _ => .wordPressUnrecognized json

/-- `ApiError::server_error` (src/error.rs): internal error carrying the
literal status and the raw body bytes. -/
def ApiError.serverError {ε : Type} (status : Nat) (body : List Nat) : ApiError ε :=
  .wordPressInternal status body

/-! ## Client capability and HTTP shapes (src/client.rs) -/

structure HttpRequest where
  method : List Nat
  uri : List Nat
  body : List Nat
deriving DecidableEq

/-- A response: status code, header multimap in insertion order (names
stored lowercased by the `http` crate; the model lowercases on lookup),
raw body bytes. -/
structure HttpResponse where
  status : Nat
  headers : List (List Nat × List Nat)
  body : List Nat
deriving DecidableEq

/-- `HeaderMap::get_all`: the values of every occurrence of a header
name, in insertion order. -/
def getAllHeaders (name : List Nat) (headers : List (List Nat × List Nat)) : List (List Nat) :=
  (headers.filter fun h => h.1.map lowerByte = name).map fun h => h.2

/-- `HeaderValue::to_str`: succeeds iff every byte is visible ASCII
(32–126) or tab. -/
def headerToStr (v : List Nat) : Option (List Nat) :=
  if v.all (fun b => (32 ≤ b && b < 127) || b = 9) then some v else none

/-- The `Client` trait's two required operations, as pure functions (one
call, one value; the async effect is outside the model). -/
structure Client (ε : Type) where
  routeUrl : List Nat → Except (ApiError ε) Url
  sendRequest : HttpRequest → Except (ApiError ε) HttpResponse

/-! ### Link-header extraction (the `regex!` patterns)

Both discovery regexes have the shape `<(.*)>TAIL` with a literal tail:
the match is leftmost, and at the match position the greedy `(.*)`
captures the longest newline-free stretch followed immediately by the
literal tail. -/

def dotByte (b : Nat) : Bool := b ≠ 10

/-- Greedy capture at a fixed start position: the longest take of `rest`
(trying lengths `k, k-1, …, 0`) that is newline-free and followed
immediately by `tail`. -/
def greedyFrom (tail rest : List Nat) : Nat → Option (List Nat)
  | 0 => if tail.isPrefixOf rest then some [] else none
  | k + 1 =>
    if (rest.take (k + 1)).all dotByte && tail.isPrefixOf (rest.drop (k + 1)) then
      some (rest.take (k + 1))
    else greedyFrom tail rest k

/-- `Regex::captures` group 1 for a pattern `<(.*)>TAIL` (`tail` starts
with the `>`): scan for the leftmost `<` at which a match exists. -/
def reCapture (tail : List Nat) : List Nat → Option (List Nat)
  | [] => none
  | b :: rest =>
    if b = 60 then
      match greedyFrom tail rest rest.length with
      | some u => some u
      | none => reCapture tail rest
    else reCapture tail rest

/-- Tail of the root-route relation pattern
`<(.*)>; rel="https://api.w.org/"`. -/
def rootRoutePatTail : List Nat := bs ">; rel=\"https://api.w.org/\""

/-- Tail of the resource relation pattern
`<(.*)>; rel="alternate"; type="application/json"`. -/
def resourcePatTail : List Nat := bs ">; rel=\"alternate\"; type=\"application/json\""

/-- The loop of `link_header_discovery` over the `link` header
occurrences: undecodable or non-matching occurrences are skipped, the
first match has its captured URL parsed and returned; a capture that
fails to parse aborts the whole scan with a URL-parse error. -/
def scanLinkValues {ε : Type} (tail : List Nat) :
    List (List Nat) → Except (ApiError ε) (Option Url)
  | [] => .ok none
  | v :: rest =>
    match headerToStr v with
    | none => scanLinkValues tail rest
    | some s =>
      match reCapture tail s with
      | none => scanLinkValues tail rest
      | some link =>
        match urlParse link with
        | .ok u => .ok (some u)
        | .error e => .error (.urlParse e)

/-- The HEAD probe request `link_header_discovery` builds. -/
def headRequest (url : Url) : HttpRequest :=
  { method := bs "HEAD", uri := url.toStr, body := [] }

/-- `link_header_discovery` (src/client.rs). -/
def linkHeaderDiscovery {ε : Type} (c : Client ε) (url : Url) (tail : List Nat) :
    Except (ApiError ε) (Option Url) :=
  match c.sendRequest (headRequest url) with
  | .error e => .error e
  | .ok resp => scanLinkValues tail (getAllHeaders (bs "link") resp.headers)

/-- `Client::discover_root_route` (src/client.rs). -/
def discoverRootRoute {ε : Type} (c : Client ε) (urlStr : List Nat) :
    Except (ApiError ε) RootRoute :=
  match urlParse urlStr with
  | .error e => .error (.urlParse e)
  | .ok url =>
    match linkHeaderDiscovery c url rootRoutePatTail with
    | .error e => .error e
    | .ok none => .error (.rootRouteDiscovery url)
    | .ok (some u) => .ok (RootRoute.fromUrl u)

/-- `Client::discover_resource` (src/client.rs). -/
def discoverResource {ε : Type} (c : Client ε) (urlStr : List Nat) :
    Except (ApiError ε) Url :=
  match urlParse urlStr with
  | .error e => .error (.urlParse e)
  | .ok url =>
    match linkHeaderDiscovery c url resourcePatTail with
    | .error e => .error e
    | .ok none => .error (.resourceDiscovery url)
    | .ok (some u) => .ok u

/-! ## Query pipelines (src/endpoint.rs, src/request.rs) -/

/-- A deserialization target: the caller's requested result type, its
`std::any::type_name`, and `serde_json::from_value` into it (failures as
message bytes). -/
structure Target (τ : Type) where
  typeName : List Nat
  fromValue : Json → Except (List Nat) τ

/-- `StatusCode::is_success`: 2xx. -/
def isSuccessStatus (status : Nat) : Bool := 200 ≤ status && status < 300

/-- The response interpretation written out identically in both
`Query::query` implementations (src/endpoint.rs lines 32–47,
src/request.rs lines 65–84): body parsed as JSON or else internal error
with literal status and raw bytes; on an error status `from_json`
classification; on success deserialization into the requested type. -/
def interpretResponse {ε τ : Type} (t : Target τ) (resp : HttpResponse) :
    Except (ApiError ε) τ :=
  match parseJson resp.body with
  | none => .error (ApiError.serverError resp.status resp.body)
  | some json =>
    if !isSuccessStatus resp.status then .error (ApiError.fromJson json)
    else
      match t.fromValue json with
      | .error e => .error (.dataType e t.typeName)
      | .ok v => .ok v

/-- An endpoint (the `Endpoint` trait): method and logical route. -/
structure Endpoint where
  method : List Nat
  route : List Nat

/-- `Query::query` for an `Endpoint` (src/endpoint.rs): resolve the
route, send, interpret. -/
def endpointQuery {ε τ : Type} (t : Target τ) (ep : Endpoint) (c : Client ε) :
    Except (ApiError ε) τ :=
  match c.routeUrl ep.route with
  | .error e => .error e
  | .ok url =>
    match c.sendRequest { method := ep.method, uri := url.toStr, body := [] } with
    | .error e => .error e
    | .ok resp => interpretResponse t resp

/-- `RequestBuilder` (src/request.rs). -/
structure RequestBuilder where
  method : Option (List Nat)
  url : Option Url
  body : Option (List Nat)

/-- `RequestBuilder::build`: the `http` builder defaults are method GET
and URI `/`; with a URL set the URI is its serialization.  Building is
total on the modelled inputs. -/
def RequestBuilder.build (rb : RequestBuilder) : HttpRequest :=
  { method := rb.method.getD (bs "GET"),
    uri :=
      match rb.url with
      | some u => u.toStr
      | none => bs "/",
    body := rb.body.getD [] }

/-- `Query::query` for a `RequestBuilder` (src/request.rs): build, send,
interpret. -/
def requestBuilderQuery {ε τ : Type} (t : Target τ) (rb : RequestBuilder) (c : Client ε) :
    Except (ApiError ε) τ :=
  match c.sendRequest rb.build with
  | .error e => .error e
  | .ok resp => interpretResponse t resp

/-! ## Spec-worded reference definitions (for refinement comparisons) -/

/-- The application-error payload shape of §4.4: `message` a string,
`code` a string, `data` any value, all reached exactly as the code
reaches them (single-token JSON pointers). -/
def wpErrorShape (j : Json) (m c : List Nat) (d : Json) : Prop :=
  j.pointerKey (bs "message") = some (.str m) ∧
  j.pointerKey (bs "code") = some (.str c) ∧
  j.pointerKey (bs "data") = some d

/-- Whether a stored query string contains a pair whose decoded key is
`rest_route` (the classification signal of §4.2). -/
def hasRestRouteQuery (q : Option (List Nat)) : Bool :=
  (parseQueryPairs (q.getD [])).any fun kv => kv.1 = REST_ROUTE_QUERY_PARAM

/-- The PrettyPermalinks join procedure as claim C4 words it: drop an
empty final segment, strip a SINGLE leading slash from the route, append
each slash-delimited component as a new segment. -/
def specJoinPrettySingleStrip (url : Url) (route : List Nat) : Url :=
  let stripped :=
    match route with
    | 47 :: r => r
    | r => r
  let comps := splitOnByte 47 stripped
  { url with pathSegments :=
      popIfEmpty url.pathSegments ++ comps.map (percentEncodeWith pathSegmentPushEncoded) }

/-- The PrettyPermalinks join procedure with the stripping rule the code
actually implements: ALL leading slashes are stripped
(`trim_start_matches` removes the matching prefix repeatedly). -/
def specJoinPrettyStripAll (url : Url) (route : List Nat) : Url :=
  let comps := splitOnByte 47 (route.dropWhile fun b => b = 47)
  { url with pathSegments :=
      popIfEmpty url.pathSegments ++ comps.map (percentEncodeWith pathSegmentPushEncoded) }

/-- The Default-variant query rebuild as the spec words it: the emitted
body of every previous pair, in original order, joined with `&`. -/
def specRebuildQuery (pairs : List (List Nat × List Nat)) (route : List Nat) : List Nat :=
  List.intercalate [38] (pairs.map (emitPair route))

/-- Every element is one byte. -/
abbrev allBytesLt256 (xs : List Nat) : Prop := ∀ b ∈ xs, b < 256

/-- Every key and value consists of bytes. -/
abbrev pairsBytesLt256 (ps : List (List Nat × List Nat)) : Prop :=
  ∀ kv ∈ ps, allBytesLt256 kv.1 ∧ allBytesLt256 kv.2

/-! ## Concrete fixtures (the inputs of the spec's §8 scenarios) -/

/-- The parsed form of `http://example.com/wp-json/`. -/
def exPrettyUrl : Url :=
  { scheme := bs "http", hasAuthority := true, host := bs "example.com",
    port := none, pathSegments := [bs "wp-json", []], query := none }

/-- The parsed form of `http://example.com/?rest_route=/`. -/
def exDefaultUrl : Url :=
  { scheme := bs "http", hasAuthority := true, host := bs "example.com",
    port := none, pathSegments := [[]], query := some (bs "rest_route=/") }

/-- The parsed form of `http://example.com` (the probe). -/
def exProbeUrl : Url :=
  { scheme := bs "http", hasAuthority := true, host := bs "example.com",
    port := none, pathSegments := [[]], query := none }

/-- The parsed form of `http://example.com/wp-json/wp/v2/posts/1`. -/
def exResourceUrl : Url :=
  { scheme := bs "http", hasAuthority := true, host := bs "example.com",
    port := none, pathSegments := [bs "wp-json", bs "wp", bs "v2", bs "posts", bs "1"],
    query := none }

def linkRootValue : List Nat := bs "<http://example.com/wp-json/>; rel=\"https://api.w.org/\""

def linkResourceValue : List Nat :=
  bs "<http://example.com/wp-json/wp/v2/posts/1>; rel=\"alternate\"; type=\"application/json\""

def linkShortValue : List Nat := bs "<http://example.com/?p=1>; rel=\"shortlink\""

/-- A link occurrence that matches the resource pattern but whose captured
text is not a URL. -/
def linkBadValue : List Nat := bs "<not a url>; rel=\"alternate\"; type=\"application/json\""

/-- The HEAD response with the three link occurrences of §8: root-route
relation, resource relation, shortlink relation, in that order. -/
def threeLinkResponse : HttpResponse :=
  { status := 200
    headers := [(bs "link", linkRootValue), (bs "link", linkResourceValue),
                (bs "link", linkShortValue)]
    body := [] }

/-- A client whose every exchange yields `threeLinkResponse`. -/
def threeLinkClient : Client Unit :=
  { routeUrl := fun _ => .error (.client ())
    sendRequest := fun _ => .ok threeLinkResponse }

def shortOnlyResponse : HttpResponse :=
  { status := 200, headers := [(bs "link", linkShortValue)], body := [] }

/-- A client whose probe response carries only a shortlink relation. -/
def shortOnlyClient : Client Unit :=
  { routeUrl := fun _ => .error (.client ())
    sendRequest := fun _ => .ok shortOnlyResponse }

def badLinkResponse : HttpResponse :=
  { status := 200, headers := [(bs "link", linkBadValue), (bs "link", linkResourceValue)],
    body := [] }

/-- A client whose probe response carries a matching occurrence with a
malformed URL before a well-formed one. -/
def badLinkClient : Client Unit :=
  { routeUrl := fun _ => .error (.client ())
    sendRequest := fun _ => .ok badLinkResponse }

/-- The target for `T = serde_json::Value` (deserialization never
fails). -/
def jsonTarget : Target Json :=
  { typeName := bs "serde_json::value::Value", fromValue := .ok }

/-- The target for `T = String` (succeeds exactly on JSON strings). -/
def stringTarget : Target (List Nat) :=
  { typeName := bs "alloc::string::String"
    fromValue := fun j =>
      match j.asStr with
      | some s => .ok s
      | none => .error (bs "invalid type") }

/-- A mock response with the given status and body and no headers. -/
def respOf (st : Nat) (b : List Nat) : HttpResponse :=
  { status := st, headers := [], body := b }

/-- A mock client that resolves every route to `exPrettyUrl` and answers
every request with the given response. -/
def respClient (r : HttpResponse) : Client Unit :=
  { routeUrl := fun _ => .ok exPrettyUrl
    sendRequest := fun _ => .ok r }

/-- The mock endpoint: GET `/mock`. -/
def mockEndpoint : Endpoint := { method := bs "GET", route := bs "/mock" }

/-- A request builder aimed at `exPrettyUrl`. -/
def mockBuilder : RequestBuilder :=
  { method := some (bs "GET"), url := some exPrettyUrl, body := none }

/-- The §8 application-error body. -/
def bodyApp404 : List Nat :=
  bs "\x7b\"code\":\"rest_post_invalid_id\",\"message\":\"Invalid post ID.\",\"data\":\x7b\"status\":404\x7d\x7d"

/-- The §8 unrecognized-error body. -/
def bodyBob : List Nat := bs "\x7b\"bob\":\"loblaw\"\x7d"

/-- The parsed `bodyApp404` value. -/
def jsonApp404 : Json :=
  .obj [(bs "code", .str (bs "rest_post_invalid_id")),
        (bs "data", .obj [(bs "status", .num (bs "404"))]),
        (bs "message", .str (bs "Invalid post ID."))]

/-- The parsed `bodyBob` value. -/
def jsonBob : Json := .obj [(bs "bob", .str (bs "loblaw"))]

/-! ## Helper lemmas: the response interpretation -/

theorem interpretResponse_of_parse_none {ε τ : Type} (t : Target τ) (resp : HttpResponse)
    (h : parseJson resp.body = none) :
    interpretResponse (ε := ε) t resp = .error (.wordPressInternal resp.status resp.body) := by
  unfold interpretResponse
  rw [h]
  rfl

theorem interpretResponse_of_error_status {ε τ : Type} (t : Target τ) (resp : HttpResponse)
    (j : Json) (hp : parseJson resp.body = some j)
    (hs : isSuccessStatus resp.status = false) :
    interpretResponse (ε := ε) t resp = .error (ApiError.fromJson j) := by
  unfold interpretResponse
  rw [hp, hs]
  rfl

theorem interpretResponse_of_success_status {ε τ : Type} (t : Target τ) (resp : HttpResponse)
    (j : Json) (hp : parseJson resp.body = some j)
    (hs : isSuccessStatus resp.status = true) :
    interpretResponse (ε := ε) t resp =
      (match t.fromValue j with
       | .error e => .error (.dataType e t.typeName)
       | .ok v => .ok v) := by
  unfold interpretResponse
  rw [hp, hs]
  rfl

theorem endpointQuery_eq_interpret {ε τ : Type} (t : Target τ) (ep : Endpoint) (c : Client ε)
    (url : Url) (resp : HttpResponse)
    (hroute : c.routeUrl ep.route = .ok url)
    (hsend : c.sendRequest { method := ep.method, uri := url.toStr, body := [] } = .ok resp) :
    endpointQuery t ep c = interpretResponse t resp := by
  unfold endpointQuery
  rw [hroute]
  show (match c.sendRequest { method := ep.method, uri := url.toStr, body := [] } with
        | Except.error e => (Except.error e : Except (ApiError ε) τ)
        | Except.ok resp => interpretResponse t resp) = _
  rw [hsend]

theorem requestBuilderQuery_eq_interpret {ε τ : Type} (t : Target τ) (rb : RequestBuilder)
    (c : Client ε) (resp : HttpResponse)
    (hsend : c.sendRequest rb.build = .ok resp) :
    requestBuilderQuery t rb c = interpretResponse t resp := by
  unfold requestBuilderQuery
  rw [hsend]

/-! ## Helper lemmas: `ApiError::from_json` -/

theorem fromJson_eq_wordPress_iff {ε : Type} (j : Json) (m c : List Nat) (d : Json) :
    ApiError.fromJson (ε := ε) j = .wordPress m c d ↔ wpErrorShape j m c d := by
  unfold ApiError.fromJson wpErrorShape
  cases hm : j.pointerKey (bs "message") with
  | none => simp
  | some vm =>
    cases hc : j.pointerKey (bs "code") with
    | none => simp
    | some vc =>
      cases hd : j.pointerKey (bs "data") with
      | none => simp
      | some vd => cases vm <;> cases vc <;> simp [Json.asStr]

theorem fromJson_unrecognized_of_not_shape {ε : Type} (j : Json)
    (h : ∀ m c d, ¬ wpErrorShape j m c d) :
    ApiError.fromJson (ε := ε) j = .wordPressUnrecognized j := by
  unfold ApiError.fromJson
  cases hm : j.pointerKey (bs "message") with
  | none => rfl
  | some vm =>
    cases hc : j.pointerKey (bs "code") with
    | none => rfl
    | some vc =>
      cases hd : j.pointerKey (bs "data") with
      | none => rfl
      | some vd =>
        cases vm <;> cases vc <;> try rfl
        case str.str s1 s2 =>
          exact absurd ⟨hm, hc, hd⟩ (h s1 s2 vd)

/-! ## Claim theorems: the query pipelines -/

/-- C1: for every response whose body bytes do not parse as a JSON value
(an empty body included), both query implementations return the
internal-error classification carrying the literal status code and the
raw body bytes — whatever the status code — and never the application or
unrecognized classification. -/
theorem claim1_unparsable_body_is_internal_error {ε τ : Type} (t : Target τ) (c : Client ε)
    (ep : Endpoint) (rb : RequestBuilder) (url : Url) (resp1 resp2 : HttpResponse)
    (hroute : c.routeUrl ep.route = .ok url)
    (hsend1 : c.sendRequest { method := ep.method, uri := url.toStr, body := [] } = .ok resp1)
    (hparse1 : parseJson resp1.body = none)
    (hsend2 : c.sendRequest rb.build = .ok resp2)
    (hparse2 : parseJson resp2.body = none) :
    endpointQuery t ep c = .error (.wordPressInternal resp1.status resp1.body) ∧
    requestBuilderQuery t rb c = .error (.wordPressInternal resp2.status resp2.body) ∧
    (∀ m co d, endpointQuery t ep c ≠ .error (.wordPress m co d)) ∧
    (∀ j, endpointQuery t ep c ≠ .error (.wordPressUnrecognized j)) ∧
    (∀ m co d, requestBuilderQuery t rb c ≠ .error (.wordPress m co d)) ∧
    (∀ j, requestBuilderQuery t rb c ≠ .error (.wordPressUnrecognized j)) := by
  have h1 : endpointQuery t ep c = .error (.wordPressInternal resp1.status resp1.body) := by
    rw [endpointQuery_eq_interpret t ep c url resp1 hroute hsend1]
    exact interpretResponse_of_parse_none t resp1 hparse1
  have h2 : requestBuilderQuery t rb c = .error (.wordPressInternal resp2.status resp2.body) := by
    rw [requestBuilderQuery_eq_interpret t rb c resp2 hsend2]
    exact interpretResponse_of_parse_none t resp2 hparse2
  refine ⟨h1, h2, fun m co d => ?_, fun j => ?_, fun m co d => ?_, fun j => ?_⟩ <;>
    simp [h1, h2]

/-- Witness for C1: status 404 with body `not json` through both
pipelines. -/
theorem claim1_unparsable_body_is_internal_error_witness :
    endpointQuery jsonTarget mockEndpoint (respClient (respOf 404 (bs "not json")))
      = .error (.wordPressInternal 404 (bs "not json")) ∧
    requestBuilderQuery jsonTarget mockBuilder (respClient (respOf 404 (bs "not json")))
      = .error (.wordPressInternal 404 (bs "not json")) :=
  have h := claim1_unparsable_body_is_internal_error jsonTarget
    (respClient (respOf 404 (bs "not json"))) mockEndpoint mockBuilder exPrettyUrl
    (respOf 404 (bs "not json")) (respOf 404 (bs "not json")) rfl rfl rfl rfl rfl
  ⟨h.1, h.2.1⟩

/-- C2: for every response whose body parses as JSON and whose status is
not a success, the pipeline yields the application error with exactly the
payload's values iff the value has string fields `message` and `code` and
any `data`; in every other case it yields the unrecognized error carrying
the value verbatim. -/
theorem claim2_error_status_payload_classification {ε τ : Type} (t : Target τ) (c : Client ε)
    (ep : Endpoint) (url : Url) (resp : HttpResponse) (j : Json)
    (hroute : c.routeUrl ep.route = .ok url)
    (hsend : c.sendRequest { method := ep.method, uri := url.toStr, body := [] } = .ok resp)
    (hparse : parseJson resp.body = some j)
    (hstatus : isSuccessStatus resp.status = false) :
    (∀ m co d, endpointQuery t ep c = .error (.wordPress m co d) ↔ wpErrorShape j m co d) ∧
    ((∀ m co d, ¬ wpErrorShape j m co d) →
      endpointQuery t ep c = .error (.wordPressUnrecognized j)) := by
  have hq : endpointQuery t ep c = .error (ApiError.fromJson j) := by
    rw [endpointQuery_eq_interpret t ep c url resp hroute hsend]
    exact interpretResponse_of_error_status t resp j hparse hstatus
  constructor
  · intro m co d
    rw [hq]
    simp only [Except.error.injEq]
    exact fromJson_eq_wordPress_iff j m co d
  · intro hns
    rw [hq, fromJson_unrecognized_of_not_shape j hns]

/-- Witness for C2: the §8 bodies at status 404 — the well-formed error
payload gives the application error, `{"bob":"loblaw"}` gives the
unrecognized error carrying the value. -/
theorem claim2_error_status_payload_classification_witness :
    endpointQuery jsonTarget mockEndpoint (respClient (respOf 404 bodyApp404))
      = .error (.wordPress (bs "Invalid post ID.") (bs "rest_post_invalid_id")
          (.obj [(bs "status", .num (bs "404"))])) ∧
    endpointQuery jsonTarget mockEndpoint (respClient (respOf 404 bodyBob))
      = .error (.wordPressUnrecognized jsonBob) := by
  constructor
  · exact ((claim2_error_status_payload_classification jsonTarget
      (respClient (respOf 404 bodyApp404)) mockEndpoint exPrettyUrl
      (respOf 404 bodyApp404) jsonApp404 rfl rfl rfl rfl).1 _ _ _).mpr ⟨rfl, rfl, rfl⟩
  · refine (claim2_error_status_payload_classification jsonTarget
      (respClient (respOf 404 bodyBob)) mockEndpoint exPrettyUrl
      (respOf 404 bodyBob) jsonBob rfl rfl rfl rfl).2 ?_
    intro m co d hshape
    have h1 := hshape.1
    rw [show Json.pointerKey jsonBob (bs "message") = none from rfl] at h1
    exact Option.noConfusion h1

/-- C8: for every response whose body parses as JSON with a success
status, the pipeline deserializes into the requested type: a
deserialization failure becomes the data-type error naming the requested
type and retaining the failure, a success returns the typed value. -/
theorem claim8_success_status_deserialization {ε τ : Type} (t : Target τ) (c : Client ε)
    (ep : Endpoint) (url : Url) (resp : HttpResponse) (j : Json)
    (hroute : c.routeUrl ep.route = .ok url)
    (hsend : c.sendRequest { method := ep.method, uri := url.toStr, body := [] } = .ok resp)
    (hparse : parseJson resp.body = some j)
    (hstatus : isSuccessStatus resp.status = true) :
    (∀ e, t.fromValue j = .error e →
      endpointQuery t ep c = .error (.dataType e t.typeName)) ∧
    (∀ v, t.fromValue j = .ok v → endpointQuery t ep c = .ok v) := by
  have hq : endpointQuery t ep c =
      (match t.fromValue j with
       | .error e => .error (.dataType e t.typeName)
       | .ok v => .ok v) := by
    rw [endpointQuery_eq_interpret t ep c url resp hroute hsend]
    exact interpretResponse_of_success_status t resp j hparse hstatus
  constructor <;> intro x hx <;> rw [hq, hx]

/-- Witness for C8: at status 200, body `"hi"` deserializes into a string
while body `5` fails with the data-type error naming the string type. -/
theorem claim8_success_status_deserialization_witness :
    endpointQuery stringTarget mockEndpoint (respClient (respOf 200 (bs "\"hi\"")))
      = .ok (bs "hi") ∧
    endpointQuery stringTarget mockEndpoint (respClient (respOf 200 (bs "5")))
      = .error (.dataType (bs "invalid type") (bs "alloc::string::String")) := by
  constructor
  · exact (claim8_success_status_deserialization stringTarget
      (respClient (respOf 200 (bs "\"hi\""))) mockEndpoint exPrettyUrl
      (respOf 200 (bs "\"hi\"")) (.str (bs "hi")) rfl rfl rfl rfl).2 (bs "hi") rfl
  · exact (claim8_success_status_deserialization stringTarget
      (respClient (respOf 200 (bs "5"))) mockEndpoint exPrettyUrl
      (respOf 200 (bs "5")) (.num (bs "5")) rfl rfl rfl rfl).1 (bs "invalid type") rfl

/-! ## Helper lemmas: the link-header scan -/

theorem scanLinkValues_skip_undecodable {ε : Type} (tail v : List Nat) (rest : List (List Nat))
    (h : headerToStr v = none) :
    scanLinkValues (ε := ε) tail (v :: rest) = scanLinkValues tail rest := by
  simp only [scanLinkValues]
  rw [h]

theorem scanLinkValues_skip_nonmatching {ε : Type} (tail v s : List Nat)
    (rest : List (List Nat)) (h1 : headerToStr v = some s) (h2 : reCapture tail s = none) :
    scanLinkValues (ε := ε) tail (v :: rest) = scanLinkValues tail rest := by
  simp only [scanLinkValues]
  rw [h1]
  show (match reCapture tail s with
        | none => scanLinkValues (ε := ε) tail rest
        | some link =>
          match urlParse link with
          | .ok u => .ok (some u)
          | .error e => .error (.urlParse e)) = _
  rw [h2]

theorem scanLinkValues_first_match {ε : Type} (tail v s link : List Nat)
    (rest : List (List Nat)) (u : Url) (h1 : headerToStr v = some s)
    (h2 : reCapture tail s = some link) (h3 : urlParse link = .ok u) :
    scanLinkValues (ε := ε) tail (v :: rest) = .ok (some u) := by
  simp only [scanLinkValues]
  rw [h1]
  show (match reCapture tail s with
        | none => scanLinkValues (ε := ε) tail rest
        | some link =>
          match urlParse link with
          | .ok u => .ok (some u)
          | .error e => .error (.urlParse e)) = _
  rw [h2]
  show (match urlParse link with
        | .ok u => (.ok (some u) : Except (ApiError ε) (Option Url))
        | .error e => .error (.urlParse e)) = _
  rw [h3]

theorem scanLinkValues_match_bad_url {ε : Type} (tail v s link : List Nat)
    (rest : List (List Nat)) (e : UrlParseError) (h1 : headerToStr v = some s)
    (h2 : reCapture tail s = some link) (h3 : urlParse link = .error e) :
    scanLinkValues (ε := ε) tail (v :: rest) = .error (.urlParse e) := by
  simp only [scanLinkValues]
  rw [h1]
  show (match reCapture tail s with
        | none => scanLinkValues (ε := ε) tail rest
        | some link =>
          match urlParse link with
          | .ok u => .ok (some u)
          | .error e => .error (.urlParse e)) = _
  rw [h2]
  show (match urlParse link with
        | .ok u => (.ok (some u) : Except (ApiError ε) (Option Url))
        | .error e => .error (.urlParse e)) = _
  rw [h3]

theorem scanLinkValues_none_of_all_skipped {ε : Type} (tail : List Nat)
    (vs : List (List Nat))
    (h : ∀ v ∈ vs, ∀ s, headerToStr v = some s → reCapture tail s = none) :
    scanLinkValues (ε := ε) tail vs = .ok none := by
  induction vs with
  | nil => rfl
  | cons v rest ih =>
    have hrest : ∀ w ∈ rest, ∀ s, headerToStr w = some s → reCapture tail s = none :=
      fun w hw => h w (List.mem_cons_of_mem v hw)
    cases hv : headerToStr v with
    | none =>
      rw [scanLinkValues_skip_undecodable tail v rest hv]
      exact ih hrest
    | some s =>
      rw [scanLinkValues_skip_nonmatching tail v s rest hv (h v (List.mem_cons_self v rest) s hv)]
      exact ih hrest

theorem linkHeaderDiscovery_eq_scan {ε : Type} (c : Client ε) (url : Url) (tail : List Nat)
    (resp : HttpResponse) (h : c.sendRequest (headRequest url) = .ok resp) :
    linkHeaderDiscovery c url tail
      = scanLinkValues tail (getAllHeaders (bs "link") resp.headers) := by
  unfold linkHeaderDiscovery
  rw [h]

theorem discoverRootRoute_of_parse {ε : Type} (c : Client ε) (probe : List Nat) (probeUrl : Url)
    (h : urlParse probe = .ok probeUrl) :
    discoverRootRoute c probe
      = (match linkHeaderDiscovery c probeUrl rootRoutePatTail with
         | .error e => .error e
         | .ok none => .error (.rootRouteDiscovery probeUrl)
         | .ok (some u) => .ok (RootRoute.fromUrl u)) := by
  unfold discoverRootRoute
  rw [h]

theorem discoverResource_of_parse {ε : Type} (c : Client ε) (probe : List Nat) (probeUrl : Url)
    (h : urlParse probe = .ok probeUrl) :
    discoverResource c probe
      = (match linkHeaderDiscovery c probeUrl resourcePatTail with
         | .error e => .error e
         | .ok none => .error (.resourceDiscovery probeUrl)
         | .ok (some u) => .ok u) := by
  unfold discoverResource
  rw [h]

/-! ## Claim theorems: the discovery protocol -/

/-- C6: the scan examines the link occurrences in header order; an
undecodable or non-matching occurrence is skipped silently and the scan
continues; the first matching occurrence has its captured URL returned at
once, whatever comes after it; with the three §8 occurrences, resource
discovery returns exactly the resource-relation URL. -/
theorem claim6_first_matching_link_occurrence_wins :
    (∀ (ε : Type) (tail v : List Nat) (rest : List (List Nat)), headerToStr v = none →
      scanLinkValues (ε := ε) tail (v :: rest) = scanLinkValues tail rest) ∧
    (∀ (ε : Type) (tail v s : List Nat) (rest : List (List Nat)),
      headerToStr v = some s → reCapture tail s = none →
      scanLinkValues (ε := ε) tail (v :: rest) = scanLinkValues tail rest) ∧
    (∀ (ε : Type) (tail v s link : List Nat) (rest : List (List Nat)) (u : Url),
      headerToStr v = some s → reCapture tail s = some link → urlParse link = .ok u →
      scanLinkValues (ε := ε) tail (v :: rest) = .ok (some u)) ∧
    discoverResource threeLinkClient (bs "http://example.com") = .ok exResourceUrl := by
  refine ⟨?_, ?_, ?_, rfl⟩
  · exact fun ε tail v rest h => scanLinkValues_skip_undecodable tail v rest h
  · exact fun ε tail v s rest h1 h2 => scanLinkValues_skip_nonmatching tail v s rest h1 h2
  · exact fun ε tail v s link rest u h1 h2 h3 =>
      scanLinkValues_first_match tail v s link rest u h1 h2 h3

/-- Witness for C6: an undecodable occurrence (byte 200) is skipped, a
shortlink occurrence does not match the resource pattern and is skipped,
and the resource occurrence wins whatever follows it. -/
theorem claim6_first_matching_link_occurrence_wins_witness :
    scanLinkValues (ε := Unit) resourcePatTail ([200] :: [linkResourceValue])
      = scanLinkValues resourcePatTail [linkResourceValue] ∧
    scanLinkValues (ε := Unit) resourcePatTail (linkShortValue :: [linkResourceValue])
      = scanLinkValues resourcePatTail [linkResourceValue] ∧
    scanLinkValues (ε := Unit) resourcePatTail (linkResourceValue :: [linkShortValue])
      = .ok (some exResourceUrl) := by
  have h := claim6_first_matching_link_occurrence_wins
  exact ⟨h.1 Unit resourcePatTail [200] [linkResourceValue] rfl,
         h.2.1 Unit resourcePatTail linkShortValue linkShortValue [linkResourceValue] rfl rfl,
         h.2.2.1 Unit resourcePatTail linkResourceValue linkResourceValue
           (bs "http://example.com/wp-json/wp/v2/posts/1") [linkShortValue] exResourceUrl
           rfl rfl rfl⟩

/-- C7: when every link occurrence is exhausted without a match, each
discovery operation fails with its discovery error carrying the
originally probed URL. -/
theorem claim7_exhausted_scan_is_discovery_error :
    (∀ (ε : Type) (c : Client ε) (probe : List Nat) (probeUrl : Url) (resp : HttpResponse),
      urlParse probe = .ok probeUrl →
      c.sendRequest (headRequest probeUrl) = .ok resp →
      (∀ v ∈ getAllHeaders (bs "link") resp.headers, ∀ s,
        headerToStr v = some s → reCapture rootRoutePatTail s = none) →
      discoverRootRoute c probe = .error (.rootRouteDiscovery probeUrl)) ∧
    (∀ (ε : Type) (c : Client ε) (probe : List Nat) (probeUrl : Url) (resp : HttpResponse),
      urlParse probe = .ok probeUrl →
      c.sendRequest (headRequest probeUrl) = .ok resp →
      (∀ v ∈ getAllHeaders (bs "link") resp.headers, ∀ s,
        headerToStr v = some s → reCapture resourcePatTail s = none) →
      discoverResource c probe = .error (.resourceDiscovery probeUrl)) := by
  constructor
  · intro ε c probe probeUrl resp hp hs hall
    rw [discoverRootRoute_of_parse c probe probeUrl hp,
        linkHeaderDiscovery_eq_scan c probeUrl rootRoutePatTail resp hs,
        scanLinkValues_none_of_all_skipped rootRoutePatTail _ hall]
  · intro ε c probe probeUrl resp hp hs hall
    rw [discoverResource_of_parse c probe probeUrl hp,
        linkHeaderDiscovery_eq_scan c probeUrl resourcePatTail resp hs,
        scanLinkValues_none_of_all_skipped resourcePatTail _ hall]

/-- Witness for C7: a probe answered only with a shortlink relation fails
both discoveries with the error carrying the probed URL. -/
theorem claim7_exhausted_scan_is_discovery_error_witness :
    discoverRootRoute shortOnlyClient (bs "http://example.com")
      = .error (.rootRouteDiscovery exProbeUrl) ∧
    discoverResource shortOnlyClient (bs "http://example.com")
      = .error (.resourceDiscovery exProbeUrl) := by
  have h := claim7_exhausted_scan_is_discovery_error
  constructor
  · refine h.1 Unit shortOnlyClient (bs "http://example.com") exProbeUrl shortOnlyResponse
      rfl rfl ?_
    intro v hv s hs
    rw [show getAllHeaders (bs "link") shortOnlyResponse.headers = [linkShortValue] from rfl,
        List.mem_singleton] at hv
    subst hv
    rw [show headerToStr linkShortValue = some linkShortValue from rfl] at hs
    cases hs
    rfl
  · refine h.2 Unit shortOnlyClient (bs "http://example.com") exProbeUrl shortOnlyResponse
      rfl rfl ?_
    intro v hv s hs
    rw [show getAllHeaders (bs "link") shortOnlyResponse.headers = [linkShortValue] from rfl,
        List.mem_singleton] at hv
    subst hv
    rw [show headerToStr linkShortValue = some linkShortValue from rfl] at hs
    cases hs
    rfl

/-- C10: a decodable occurrence that matches the pattern but carries a
captured text that fails to parse as a URL aborts the whole scan at once
with the URL-parse error — it is not skipped, and later occurrences are
never examined; concretely, a malformed capture standing before a
well-formed resource link fails resource discovery. -/
theorem claim10_malformed_captured_url_aborts :
    (∀ (ε : Type) (tail v s link : List Nat) (rest : List (List Nat)) (e : UrlParseError),
      headerToStr v = some s → reCapture tail s = some link → urlParse link = .error e →
      scanLinkValues (ε := ε) tail (v :: rest) = .error (.urlParse e)) ∧
    discoverResource badLinkClient (bs "http://example.com")
      = .error (.urlParse .relativeUrlWithoutBase) := by
  refine ⟨?_, rfl⟩
  exact fun ε tail v s link rest e h1 h2 h3 =>
    scanLinkValues_match_bad_url tail v s link rest e h1 h2 h3

/-- Witness for C10: the malformed capture `not a url` aborts the scan
although a matching well-formed occurrence follows. -/
theorem claim10_malformed_captured_url_aborts_witness :
    scanLinkValues (ε := Unit) resourcePatTail [linkBadValue, linkResourceValue]
      = .error (.urlParse .relativeUrlWithoutBase) :=
  claim10_malformed_captured_url_aborts.1 Unit resourcePatTail linkBadValue linkBadValue
    (bs "not a url") [linkResourceValue] .relativeUrlWithoutBase rfl rfl rfl

/-! ## Helper lemmas: split, trim, pop, encode -/

theorem splitOnByte_cons (sep b : Nat) (rest : List Nat) :
    splitOnByte sep (b :: rest)
      = if b = sep then [] :: splitOnByte sep rest
        else
          match splitOnByte sep rest with
          | [] => [[b]]
          | piece :: more => (b :: piece) :: more := rfl

theorem splitOnByte_ne_nil (sep : Nat) (xs : List Nat) : splitOnByte sep xs ≠ [] := by
  induction xs with
  | nil => simp [splitOnByte]
  | cons b rest ih =>
    rw [splitOnByte_cons]
    split_ifs
    · simp
    · cases h : splitOnByte sep rest with
      | nil => simp
      | cons piece more => simp

theorem splitOnByte_append_cons (sep : Nat) (x y : List Nat) :
    splitOnByte sep (x ++ sep :: y) = splitOnByte sep x ++ splitOnByte sep y := by
  induction x with
  | nil =>
    rw [List.nil_append, splitOnByte_cons, if_pos rfl]
    rfl
  | cons b rest ih =>
    rw [List.cons_append, splitOnByte_cons, splitOnByte_cons sep b rest]
    by_cases hb : b = sep
    · rw [if_pos hb, if_pos hb, ih]
      rfl
    · rw [if_neg hb, if_neg hb, ih]
      cases h : splitOnByte sep rest with
      | nil => exact absurd h (splitOnByte_ne_nil sep rest)
      | cons piece more => simp

theorem splitOnByte_last_piece_ne_nil (sep : Nat) (x : List Nat) (hne : x ≠ [])
    (hlast : x.getLast? ≠ some sep) :
    ∀ p, (splitOnByte sep x).getLast? = some p → p ≠ [] := by
  induction x with
  | nil => exact absurd rfl hne
  | cons b rest ih =>
    cases rest with
    | nil =>
      intro p hp
      have hb : ¬ b = sep := fun h => hlast (by rw [h]; rfl)
      rw [splitOnByte_cons, if_neg hb] at hp
      have hred : (match splitOnByte sep ([] : List Nat) with
          | [] => [[b]]
          | piece :: more => (b :: piece) :: more) = [[b]] := rfl
      rw [hred, List.getLast?_singleton, Option.some.injEq] at hp
      subst hp
      simp
    | cons c rs =>
      have hlast2 : (c :: rs).getLast? ≠ some sep := by
        rw [← List.getLast?_cons_cons (a := b)]
        exact hlast
      intro p hp
      rw [splitOnByte_cons] at hp
      by_cases hb : b = sep
      · rw [if_pos hb] at hp
        cases hsp : splitOnByte sep (c :: rs) with
        | nil => exact absurd hsp (splitOnByte_ne_nil sep (c :: rs))
        | cons q qs =>
          rw [hsp, List.getLast?_cons_cons] at hp
          refine ih (by simp) hlast2 p ?_
          rw [hsp]
          exact hp
      · rw [if_neg hb] at hp
        cases hsp : splitOnByte sep (c :: rs) with
        | nil => exact absurd hsp (splitOnByte_ne_nil sep (c :: rs))
        | cons q qs =>
          rw [hsp] at hp
          cases qs with
          | nil =>
            rw [List.getLast?_singleton, Option.some.injEq] at hp
            subst hp
            simp
          | cons w ws =>
            rw [List.getLast?_cons_cons] at hp
            refine ih (by simp) hlast2 p ?_
            rw [hsp, List.getLast?_cons_cons]
            exact hp

theorem popIfEmpty_of_getLast_ne_nil (segs : List (List Nat))
    (h : ∀ x, segs.getLast? = some x → x ≠ []) : popIfEmpty segs = segs := by
  unfold popIfEmpty
  cases hl : segs.getLast? with
  | none => rfl
  | some x =>
    cases x with
    | nil => exact absurd rfl (h [] hl)
    | cons a t => rfl

theorem popIfEmpty_concat_nil (ys : List (List Nat)) : popIfEmpty (ys ++ [[]]) = ys := by
  unfold popIfEmpty
  rw [List.getLast?_concat]
  exact List.dropLast_concat

theorem percentEncodeWith_ne_nil (f : Nat → Bool) (x : List Nat) (h : x ≠ []) :
    percentEncodeWith f x ≠ [] := by
  cases x with
  | nil => exact absurd rfl h
  | cons b rest =>
    unfold percentEncodeWith
    rw [List.flatMap_cons]
    split_ifs <;> simp

theorem foldl_append_singleton (f : List Nat → List Nat) (comps : List (List Nat)) :
    ∀ init : List (List Nat),
      comps.foldl (fun segs comp => segs ++ [f comp]) init = init ++ comps.map f := by
  induction comps with
  | nil => intro init; simp
  | cons c cs ih =>
    intro init
    rw [List.foldl_cons, List.map_cons, ih (init ++ [f c]), List.append_assoc]
    rfl

theorem trimStartSlashes_cons_slash (r : List Nat) :
    trimStartSlashes (47 :: r) = trimStartSlashes r := by
  unfold trimStartSlashes
  rw [List.dropWhile_cons]
  simp

theorem trimStartSlashes_of_head_ne (r : List Nat) (h : r.head? ≠ some 47) :
    trimStartSlashes r = r := by
  cases r with
  | nil => rfl
  | cons c t =>
    have hc : ¬ c = 47 := fun hh => h (by rw [hh]; rfl)
    unfold trimStartSlashes
    rw [List.dropWhile_cons]
    simp [hc]

theorem trimStartSlashes_append_of_ne_nil (r1 r2 : List Nat)
    (h : trimStartSlashes r1 ≠ []) :
    trimStartSlashes (r1 ++ r2) = trimStartSlashes r1 ++ r2 := by
  unfold trimStartSlashes at h ⊢
  rw [List.dropWhile_append]
  simp only [List.isEmpty_iff]
  rw [if_neg h]

theorem trimStartSlashes_getLast (r : List Nat) (h : trimStartSlashes r ≠ []) :
    (trimStartSlashes r).getLast? = r.getLast? := by
  unfold trimStartSlashes at h ⊢
  conv_rhs => rw [← List.takeWhile_append_dropWhile (fun b => decide (b = 47)) r]
  rw [List.getLast?_append_of_ne_nil _ h]

theorem trimStartSlashes_nil_forces_nil (r : List Nat) (hall : trimStartSlashes r = [])
    (hlast : r.getLast? ≠ some 47) : r = [] := by
  cases r with
  | nil => rfl
  | cons b t =>
    exfalso
    unfold trimStartSlashes at hall
    have hmem := List.dropWhile_eq_nil_iff.mp hall
    have hne : b :: t ≠ [] := by simp
    have hlastmem : (b :: t).getLast hne ∈ b :: t := List.getLast_mem hne
    have heq : (b :: t).getLast hne = 47 := by
      have := hmem _ hlastmem
      simpa using this
    exact hlast (by rw [List.getLast?_eq_getLast _ hne, heq])

/-! ## Helper lemmas: the PrettyPermalinks join in append form -/

theorem join_pretty_eq (url : Url) (route : List Nat) :
    RootRoute.join (.prettyPermalinks url) route
      = { url with pathSegments :=
            popIfEmpty url.pathSegments ++ (splitOnByte 47 (trimStartSlashes route)).map (percentEncodeWith pathSegmentPushEncoded) } := by
  show ({ url with pathSegments := (splitOnByte 47 (trimStartSlashes route)).foldl (fun segs comp => segs ++ [percentEncodeWith pathSegmentPushEncoded comp]) (popIfEmpty url.pathSegments) } : Url) = _
  rw [foldl_append_singleton]

theorem join_pretty_join_pretty (u : Url) (ra rb : List Nat) :
    RootRoute.join (.prettyPermalinks (RootRoute.join (.prettyPermalinks u) ra)) rb
      = { u with pathSegments :=
            popIfEmpty (popIfEmpty u.pathSegments ++ (splitOnByte 47 (trimStartSlashes ra)).map (percentEncodeWith pathSegmentPushEncoded)) ++ (splitOnByte 47 (trimStartSlashes rb)).map (percentEncodeWith pathSegmentPushEncoded) } := by
  rw [join_pretty_eq u ra, join_pretty_eq]

theorem pretty_join_segments_comp (P : List (List Nat)) (r1 r2 : List Nat)
    (h1 : r1.getLast? ≠ some 47) (h2 : r2.head? ≠ some 47) :
    P ++ (splitOnByte 47 (trimStartSlashes (r1 ++ 47 :: r2))).map
        (percentEncodeWith pathSegmentPushEncoded)
      = popIfEmpty (P ++ (splitOnByte 47 (trimStartSlashes r1)).map
          (percentEncodeWith pathSegmentPushEncoded))
        ++ (splitOnByte 47 (trimStartSlashes (47 :: r2))).map
          (percentEncodeWith pathSegmentPushEncoded) := by
  rw [trimStartSlashes_cons_slash, trimStartSlashes_of_head_ne r2 h2]
  by_cases hall : trimStartSlashes r1 = []
  · have hr1 : r1 = [] := trimStartSlashes_nil_forces_nil r1 hall h1
    subst hr1
    rw [List.nil_append, trimStartSlashes_cons_slash, trimStartSlashes_of_head_ne r2 h2]
    rw [show (splitOnByte 47 (trimStartSlashes ([] : List Nat))).map
        (percentEncodeWith pathSegmentPushEncoded) = [[]] from rfl]
    rw [popIfEmpty_concat_nil]
  · rw [trimStartSlashes_append_of_ne_nil r1 (47 :: r2) hall]
    rw [splitOnByte_append_cons, List.map_append, ← List.append_assoc]
    rw [popIfEmpty_of_getLast_ne_nil]
    intro x hx
    have hmapne : (splitOnByte 47 (trimStartSlashes r1)).map
        (percentEncodeWith pathSegmentPushEncoded) ≠ [] := by
      intro hcon
      exact splitOnByte_ne_nil 47 (trimStartSlashes r1) (List.map_eq_nil_iff.mp hcon)
    rw [List.getLast?_append_of_ne_nil _ hmapne, List.getLast?_map] at hx
    obtain ⟨piece, hpiece, henc⟩ := Option.map_eq_some'.mp hx
    have hlast1 : (trimStartSlashes r1).getLast? ≠ some 47 := by
      rw [trimStartSlashes_getLast r1 hall]
      exact h1
    rw [← henc]
    exact percentEncodeWith_ne_nil _ piece
      (splitOnByte_last_piece_ne_nil 47 (trimStartSlashes r1) hall hlast1 piece hpiece)

/-! ## Claim theorems: the root-route model -/

/-- C3: classification yields Default exactly when some decoded query
pair has the key `rest_route` (any position, any value, any co-present
parameters), otherwise PrettyPermalinks; and only the query string
participates — two URLs with equal query strings classify alike. -/
theorem claim3_classification_iff_rest_route_param :
    ∀ u : Url,
      (RootRoute.fromUrl u = .default u ↔
        ∃ kv ∈ parseQueryPairs (u.query.getD []), kv.1 = REST_ROUTE_QUERY_PARAM) ∧
      ((¬ ∃ kv ∈ parseQueryPairs (u.query.getD []), kv.1 = REST_ROUTE_QUERY_PARAM) →
        RootRoute.fromUrl u = .prettyPermalinks u) ∧
      (∀ u2 : Url, u.query = u2.query →
        (RootRoute.fromUrl u = .default u ↔ RootRoute.fromUrl u2 = .default u2)) := by
  have key : ∀ u : Url, RootRoute.fromUrl u = .default u ↔ hasRestRouteQuery u.query = true := by
    intro u
    unfold RootRoute.fromUrl hasRestRouteQuery
    split_ifs with h
    · simp [h]
    · simp only [Bool.not_eq_true] at h
      simp [h]
  intro u
  refine ⟨?_, ?_, ?_⟩
  · rw [key u]
    unfold hasRestRouteQuery
    rw [List.any_eq_true]
    simp only [decide_eq_true_eq]
  · intro hne
    unfold RootRoute.fromUrl
    split_ifs with h
    · exact absurd (by simpa [List.any_eq_true] using h) hne
    · rfl
  · intro u2 hq
    rw [key u, key u2, hq]

/-- Witness for C3: the §8 base URLs classify as Default and
PrettyPermalinks respectively. -/
theorem claim3_classification_iff_rest_route_param_witness :
    RootRoute.fromUrl exDefaultUrl = .default exDefaultUrl ∧
    RootRoute.fromUrl exPrettyUrl = .prettyPermalinks exPrettyUrl := by
  have h := claim3_classification_iff_rest_route_param
  exact ⟨(h exDefaultUrl).1.mpr (by decide), (h exPrettyUrl).2.1 (by decide)⟩

/-- C4 (amended): the PrettyPermalinks join drops an empty final segment
of the base path and appends each slash-delimited component of the route
after stripping ALL leading slashes (the code's `trim_start_matches('/')`
removes every leading slash, not just one); scheme, host and query are
untouched; the §8 example holds. -/
theorem claim4_pretty_join_directory_semantics :
    (∀ (url : Url) (route : List Nat),
      RootRoute.join (.prettyPermalinks url) route = specJoinPrettyStripAll url route ∧
      (RootRoute.join (.prettyPermalinks url) route).query = url.query ∧
      (RootRoute.join (.prettyPermalinks url) route).host = url.host ∧
      (RootRoute.join (.prettyPermalinks url) route).scheme = url.scheme) ∧
    ((RootRoute.prettyPermalinks exPrettyUrl).join (bs "/wp/v2/posts/1")).toStr
      = bs "http://example.com/wp-json/wp/v2/posts/1" := by
  refine ⟨?_, rfl⟩
  intro url route
  refine ⟨?_, rfl, rfl, rfl⟩
  rw [join_pretty_eq]
  rfl

/-- Counterexample to C4 as stated: on route `//wp` the code strips BOTH
leading slashes, while the claim's single-slash procedure keeps an empty
component and produces a double slash — the two results differ. -/
theorem claim4_single_strip_counterexample :
    ((RootRoute.prettyPermalinks exPrettyUrl).join (bs "//wp")).toStr
      = bs "http://example.com/wp-json/wp" ∧
    (specJoinPrettySingleStrip exPrettyUrl (bs "//wp")).toStr
      = bs "http://example.com/wp-json//wp" ∧
    (RootRoute.prettyPermalinks exPrettyUrl).join (bs "//wp")
      ≠ specJoinPrettySingleStrip exPrettyUrl (bs "//wp") := by
  refine ⟨rfl, rfl, by decide⟩

/-- C9 (amended): join is pure and deterministic, and for a
PrettyPermalinks root joining `r1 ++ "/" ++ r2` equals joining `r1`,
classifying the result, then joining `"/" ++ r2` — provided the fragments
compose with exactly one separating slash (the first fragment does not
end in `/` and the second begins with exactly one `/`).  Without a
separating slash the equation fails (see the counterexample). -/
theorem claim9_pretty_join_sequential_composition :
    (∀ (r : RootRoute) (route : List Nat), r.join route = r.join route) ∧
    ∀ (u : Url) (r1 r2 : List Nat),
      RootRoute.fromUrl u = .prettyPermalinks u →
      r1.getLast? ≠ some 47 →
      r2.head? ≠ some 47 →
      RootRoute.join (.prettyPermalinks u) (r1 ++ 47 :: r2)
        = RootRoute.join (RootRoute.fromUrl (RootRoute.join (.prettyPermalinks u) r1))
            (47 :: r2) := by
  refine ⟨fun r route => rfl, ?_⟩
  intro u r1 r2 hcls h1 h2
  have hcls2 : RootRoute.fromUrl (RootRoute.join (.prettyPermalinks u) r1)
      = .prettyPermalinks (RootRoute.join (.prettyPermalinks u) r1) := by
    unfold RootRoute.fromUrl at hcls ⊢
    rw [show (RootRoute.join (.prettyPermalinks u) r1).query = u.query from rfl]
    split_ifs at hcls ⊢ with hc <;> first
      | rfl
      | exact absurd hcls (by simp)
  rw [hcls2, join_pretty_join_pretty, join_pretty_eq]
  rw [pretty_join_segments_comp (popIfEmpty u.pathSegments) r1 r2 h1 h2]

/-- Witness for C9: composing `/wp/v2` with `/posts/1` on the §8 base. -/
theorem claim9_pretty_join_sequential_composition_witness :
    RootRoute.join (.prettyPermalinks exPrettyUrl) (bs "/wp/v2" ++ 47 :: bs "posts/1")
      = RootRoute.join
          (RootRoute.fromUrl (RootRoute.join (.prettyPermalinks exPrettyUrl) (bs "/wp/v2")))
          (47 :: bs "posts/1") :=
  claim9_pretty_join_sequential_composition.2 exPrettyUrl (bs "/wp/v2") (bs "posts/1")
    (by decide) (by decide) (by decide)

/-- Counterexample to C9 as stated: fragments `a` and `b` concatenate to
the single segment `ab`, while sequential joining yields two segments —
the results differ beyond any trailing-slash normalization. -/
theorem claim9_concat_counterexample :
    ((RootRoute.prettyPermalinks exPrettyUrl).join (bs "a" ++ bs "b")).toStr
      = bs "http://example.com/wp-json/ab" ∧
    (RootRoute.join
        (RootRoute.fromUrl ((RootRoute.prettyPermalinks exPrettyUrl).join (bs "a")))
        (bs "b")).toStr
      = bs "http://example.com/wp-json/a/b" ∧
    (RootRoute.prettyPermalinks exPrettyUrl).join (bs "a" ++ bs "b")
      ≠ RootRoute.join
          (RootRoute.fromUrl ((RootRoute.prettyPermalinks exPrettyUrl).join (bs "a")))
          (bs "b") := by
  refine ⟨rfl, rfl, by decide⟩

/-! ## Helper lemmas: form-urlencoded round trips -/

theorem decodePiece_encByte_append (b : Nat) (hb : b < 256) (t : List Nat) :
    percentDecode ((encByte b).map (fun x => if x = 43 then 32 else x) ++ t)
      = b :: percentDecode t := by
  interval_cases b <;> rfl

theorem decodePiece_formEncode (x : List Nat) (hx : ∀ b ∈ x, b < 256) :
    decodePiece (formEncode x) = x := by
  induction x with
  | nil => rfl
  | cons b rest ih =>
    have hcons : formEncode (b :: rest) = encByte b ++ formEncode rest := by
      unfold formEncode
      exact List.flatMap_cons b rest encByte
    unfold decodePiece at ih ⊢
    rw [hcons, List.map_append, decodePiece_encByte_append b (hx b (List.mem_cons_self b rest)),
        ih (fun c hc => hx c (List.mem_cons_of_mem b hc))]

theorem hexDigitUpper_ne_amp_eq (n : Nat) : hexDigitUpper n ≠ 38 ∧ hexDigitUpper n ≠ 61 := by
  unfold hexDigitUpper
  split_ifs with h <;> omega

theorem mem_encByte_ne_amp_eq (b x : Nat) (hx : x ∈ encByte b) : x ≠ 38 ∧ x ≠ 61 := by
  unfold encByte at hx
  split_ifs at hx with h1 h2
  · rw [List.mem_singleton] at hx
    subst hx
    unfold formUnreserved at h1
    simp only [Bool.or_eq_true, Bool.and_eq_true, decide_eq_true_eq] at h1
    omega
  · rw [List.mem_singleton] at hx
    omega
  · simp only [List.mem_cons, List.not_mem_nil, or_false] at hx
    rcases hx with rfl | rfl | rfl
    · omega
    · exact hexDigitUpper_ne_amp_eq _
    · exact hexDigitUpper_ne_amp_eq _

theorem mem_formEncode_ne_amp_eq (xs : List Nat) (x : Nat) (hx : x ∈ formEncode xs) :
    x ≠ 38 ∧ x ≠ 61 := by
  unfold formEncode at hx
  obtain ⟨b, _, hmem⟩ := List.mem_flatMap.mp hx
  exact mem_encByte_ne_amp_eq b x hmem

theorem amp_not_mem_formEncode (xs : List Nat) : 38 ∉ formEncode xs :=
  fun h => (mem_formEncode_ne_amp_eq xs 38 h).1 rfl

theorem eq_not_mem_formEncode (xs : List Nat) : 61 ∉ formEncode xs :=
  fun h => (mem_formEncode_ne_amp_eq xs 61 h).2 rfl

theorem encByte_ne_nil (b : Nat) : encByte b ≠ [] := by
  unfold encByte
  split_ifs <;> simp

theorem formEncode_ne_nil (x : List Nat) (h : x ≠ []) : formEncode x ≠ [] := by
  cases x with
  | nil => exact absurd rfl h
  | cons b rest =>
    unfold formEncode
    rw [List.flatMap_cons]
    intro hcon
    exact encByte_ne_nil b (List.append_eq_nil.mp hcon).1

/-! ## Helper lemmas: splitFirst and the query serializer -/

theorem splitFirst_of_not_mem (sep : Nat) (a : List Nat) (h : sep ∉ a) :
    splitFirst sep a = (a, none) := by
  induction a with
  | nil => rfl
  | cons c t ih =>
    have hc : ¬ c = sep := fun hh => h (hh ▸ List.mem_cons_self c t)
    unfold splitFirst
    rw [if_neg hc, ih (fun hm => h (List.mem_cons_of_mem c hm))]

theorem splitFirst_append_cons (sep : Nat) (a b2 : List Nat) (h : sep ∉ a) :
    splitFirst sep (a ++ sep :: b2) = (a, some b2) := by
  induction a with
  | nil =>
    rw [List.nil_append]
    unfold splitFirst
    rw [if_pos rfl]
  | cons c t ih =>
    have hc : ¬ c = sep := fun hh => h (hh ▸ List.mem_cons_self c t)
    rw [List.cons_append]
    unfold splitFirst
    rw [if_neg hc, ih (fun hm => h (List.mem_cons_of_mem c hm))]

theorem splitOnByte_of_not_mem (sep : Nat) (x : List Nat) (h : sep ∉ x) :
    splitOnByte sep x = [x] := by
  induction x with
  | nil => rfl
  | cons b rest ih =>
    have hb : ¬ b = sep := fun hh => h (hh ▸ List.mem_cons_self b rest)
    rw [splitOnByte_cons, if_neg hb, ih (fun hm => h (List.mem_cons_of_mem b hm))]

theorem intercalate_amp_cons_flat (p : List Nat) (ps : List (List Nat)) :
    List.intercalate [38] (p :: ps) = p ++ ps.flatMap (fun q => 38 :: q) := by
  induction ps generalizing p with
  | nil => simp [List.intercalate]
  | cons q qs ih =>
    have h1 : List.intercalate [38] (p :: q :: qs)
        = p ++ [38] ++ List.intercalate [38] (q :: qs) := by
      simp [List.intercalate, List.intersperse]
    rw [h1, ih q]
    simp

theorem foldl_appendPiece_flat (pieces : List (List Nat)) :
    ∀ acc, acc ≠ [] →
      pieces.foldl appendPiece acc = acc ++ pieces.flatMap (fun p => 38 :: p) := by
  induction pieces with
  | nil => intro acc _; simp
  | cons p ps ih =>
    intro acc hacc
    rw [List.foldl_cons]
    have hap : appendPiece acc p = acc ++ 38 :: p := by
      unfold appendPiece
      rw [if_neg hacc]
    rw [hap, ih (acc ++ 38 :: p) (by simp), List.flatMap_cons]
    simp

theorem foldl_appendPiece_intercalate (pieces : List (List Nat))
    (h : ∀ p ∈ pieces, p ≠ []) :
    List.foldl appendPiece [] pieces = List.intercalate [38] pieces := by
  cases pieces with
  | nil => rfl
  | cons p ps =>
    rw [List.foldl_cons]
    have hap : appendPiece [] p = p := by
      unfold appendPiece
      rw [if_pos rfl]
    rw [hap, foldl_appendPiece_flat ps p (h p (List.mem_cons_self p ps)),
        intercalate_amp_cons_flat]

theorem splitOnByte_intercalate_amp (pieces : List (List Nat)) (hp : pieces ≠ [])
    (hfree : ∀ p ∈ pieces, 38 ∉ p) :
    splitOnByte 38 (List.intercalate [38] pieces) = pieces := by
  induction pieces with
  | nil => exact absurd rfl hp
  | cons p ps ih =>
    cases ps with
    | nil =>
      have h1 : List.intercalate [38] [p] = p := by simp [List.intercalate]
      rw [h1, splitOnByte_of_not_mem 38 p (hfree p (List.mem_cons_self p []))]
    | cons q qs =>
      have h1 : List.intercalate [38] (p :: q :: qs)
          = p ++ 38 :: List.intercalate [38] (q :: qs) := by
        simp [List.intercalate, List.intersperse]
      rw [h1, splitOnByte_append_cons,
          splitOnByte_of_not_mem 38 p (hfree p (List.mem_cons_self p (q :: qs))),
          ih (by simp) (fun r hr => hfree r (List.mem_cons_of_mem p hr))]
      rfl

theorem emitPair_ne_nil (route : List Nat) (kv : List Nat × List Nat)
    (h : kv ≠ ([], [])) : emitPair route kv ≠ [] := by
  unfold emitPair
  split_ifs with h1 h2
  · simp
  · refine formEncode_ne_nil kv.1 ?_
    intro h0
    exact h (Prod.ext h0 h2)
  · simp

theorem amp_not_mem_emitPair (route : List Nat) (kv : List Nat × List Nat) :
    38 ∉ emitPair route kv := by
  unfold emitPair
  split_ifs with h1 h2
  · intro hm
    rcases List.mem_append.mp hm with hm1 | hm2
    · exact amp_not_mem_formEncode _ hm1
    · rcases List.mem_cons.mp hm2 with h61 | hm3
      · omega
      · exact amp_not_mem_formEncode _ hm3
  · exact amp_not_mem_formEncode _
  · intro hm
    rcases List.mem_append.mp hm with hm1 | hm2
    · exact amp_not_mem_formEncode _ hm1
    · rcases List.mem_cons.mp hm2 with h61 | hm3
      · omega
      · exact amp_not_mem_formEncode _ hm3

theorem parse_emitPair (route : List Nat) (hroute : ∀ b ∈ route, b < 256)
    (kv : List Nat × List Nat) (hk : ∀ b ∈ kv.1, b < 256) (hv : ∀ b ∈ kv.2, b < 256) :
    (decodePiece (splitFirst 61 (emitPair route kv)).1,
     decodePiece ((splitFirst 61 (emitPair route kv)).2.getD []))
      = if kv.1 = REST_ROUTE_QUERY_PARAM then (REST_ROUTE_QUERY_PARAM, route) else kv := by
  unfold emitPair
  split_ifs with h1 h2
  · rw [splitFirst_append_cons 61 _ _ (eq_not_mem_formEncode _)]
    show (decodePiece (formEncode REST_ROUTE_QUERY_PARAM), decodePiece (formEncode route)) = _
    rw [decodePiece_formEncode _ (by decide), decodePiece_formEncode route hroute]
  · rw [splitFirst_of_not_mem 61 _ (eq_not_mem_formEncode _)]
    show (decodePiece (formEncode kv.1), decodePiece []) = kv
    rw [decodePiece_formEncode kv.1 hk]
    exact (Prod.ext rfl h2.symm)
  · rw [splitFirst_append_cons 61 _ _ (eq_not_mem_formEncode _)]
    show (decodePiece (formEncode kv.1), decodePiece (formEncode kv.2)) = kv
    rw [decodePiece_formEncode kv.1 hk, decodePiece_formEncode kv.2 hv]

theorem filterMap_all_some (pieces : List (List Nat))
    (g : List Nat → List Nat × List Nat) (h : ∀ p ∈ pieces, p ≠ []) :
    (pieces.filterMap fun piece => if piece = [] then none else some (g piece))
      = pieces.map g := by
  induction pieces with
  | nil => rfl
  | cons p ps ih =>
    rw [List.filterMap_cons, List.map_cons]
    rw [if_neg (h p (List.mem_cons_self p ps))]
    rw [ih (fun q hq => h q (List.mem_cons_of_mem p hq))]

theorem parseQueryPairs_specRebuild (pairs : List (List Nat × List Nat)) (route : List Nat)
    (hroute : allBytesLt256 route) (hpairs : pairsBytesLt256 pairs)
    (hne : ([], []) ∉ pairs) :
    parseQueryPairs (specRebuildQuery pairs route)
      = pairs.map
          (fun kv => if kv.1 = REST_ROUTE_QUERY_PARAM then (REST_ROUTE_QUERY_PARAM, route) else kv) := by
  have hemit_ne : ∀ p ∈ pairs.map (emitPair route), p ≠ [] := by
    intro p hp
    obtain ⟨kv, hkv, rfl⟩ := List.mem_map.mp hp
    exact emitPair_ne_nil route kv (fun h0 => hne (h0 ▸ hkv))
  cases pairs with
  | nil => rfl
  | cons kv0 kvs =>
    unfold specRebuildQuery parseQueryPairs
    rw [splitOnByte_intercalate_amp _ (by simp)
        (fun p hp => by
          obtain ⟨kv, _, rfl⟩ := List.mem_map.mp hp
          exact amp_not_mem_emitPair route kv)]
    rw [filterMap_all_some _ _ hemit_ne, List.map_map]
    refine List.map_congr_left ?_
    intro kv hkv
    exact parse_emitPair route hroute kv (hpairs kv hkv).1 (hpairs kv hkv).2

/-- C5: the Default-variant join rebuilds the query exactly as the spec
words it (every pair in order, `rest_route` replaced by the
percent-encoded route, empty values key-only); at the decoded level the
result's pairs are the original pairs with every `rest_route` value
replaced; scheme, host and path are untouched; the §8 example holds. -/
theorem claim5_default_join_query_rebuild (u : Url) (route : List Nat)
    (hroute : allBytesLt256 route)
    (hpairs : pairsBytesLt256 (parseQueryPairs (u.query.getD [])))
    (hne : ([], []) ∉ parseQueryPairs (u.query.getD [])) :
    (RootRoute.join (.default u) route).query
      = some (specRebuildQuery (parseQueryPairs (u.query.getD [])) route) ∧
    parseQueryPairs ((RootRoute.join (.default u) route).query.getD [])
      = (parseQueryPairs (u.query.getD [])).map
          (fun kv => if kv.1 = REST_ROUTE_QUERY_PARAM then (REST_ROUTE_QUERY_PARAM, route) else kv) ∧
    (RootRoute.join (.default u) route).pathSegments = u.pathSegments ∧
    (RootRoute.join (.default u) route).host = u.host ∧
    (RootRoute.join (.default u) route).scheme = u.scheme ∧
    ((RootRoute.default exDefaultUrl).join (bs "/wp/v2/posts/1")).toStr
      = bs "http://example.com/?rest_route=%2Fwp%2Fv2%2Fposts%2F1" := by
  have hemit_ne : ∀ p ∈ (parseQueryPairs (u.query.getD [])).map (emitPair route), p ≠ [] := by
    intro p hp
    obtain ⟨kv, hkv, rfl⟩ := List.mem_map.mp hp
    exact emitPair_ne_nil route kv (fun h0 => hne (h0 ▸ hkv))
  have hq : (RootRoute.join (.default u) route).query
      = some (specRebuildQuery (parseQueryPairs (u.query.getD [])) route) := by
    show some (List.foldl (fun q kv => appendPiece q (emitPair route kv)) []
        (parseQueryPairs (u.query.getD []))) = _
    unfold specRebuildQuery
    rw [← List.foldl_map (emitPair route) appendPiece,
        foldl_appendPiece_intercalate _ hemit_ne]
  refine ⟨hq, ?_, rfl, rfl, rfl, rfl⟩
  rw [hq]
  exact parseQueryPairs_specRebuild (parseQueryPairs (u.query.getD [])) route
    hroute hpairs hne

/-- Witness for C5: the §8 Default-variant example. -/
theorem claim5_default_join_query_rebuild_witness :
    ((RootRoute.default exDefaultUrl).join (bs "/wp/v2/posts/1")).toStr
      = bs "http://example.com/?rest_route=%2Fwp%2Fv2%2Fposts%2F1" :=
  (claim5_default_join_query_rebuild exDefaultUrl (bs "/wp/v2/posts/1")
    (by decide) (by decide) (by decide)).2.2.2.2.2

end Wordpress
